import Mathlib

/-!
Verification of the To-Do-List CRUD service (`src/To-Do-ListAPI.py`).

The service keeps task records in a single SQLite table (`tasks`) and
exposes create / list / get / update / delete handlers over it.  We embed
the store as a list of rows in rowid order and each handler as a function
from the store (plus the validated request payload) to a response and the
resulting store.

Modelling choices, each traced to a line of the source:

* `Task` mirrors the SQLAlchemy model (lines 19-25): `id` is the integer
  primary key; `title` is a `String` column with `nullable=False`;
  `description` is nullable; `done` is a `Boolean` column with no
  `nullable=False`, hence nullable at the SQL level.  Nullable columns are
  `Option`-valued; `title` is also `Option`-valued because an UPDATE can
  attempt to write NULL into it (the NOT NULL constraint then fires at
  commit time, not at assignment time).
* `TaskCreate` (lines 29-35) is the create payload after pydantic
  validation: `title : str` (a null or missing title is rejected with 422
  before the handler runs), `description : Optional[str] = None`,
  `done : bool = False` (an explicit null `done` is likewise rejected).
* `TaskUpdate` (lines 37-40) has three optional fields, and the handler
  reads it with `task.dict(exclude_unset=True)` (line 111), which keeps a
  field that was explicitly supplied even when its value is null.  So each
  payload field is `Option (Option _)`: the outer layer is "was the field
  present in the request body", the inner layer is the JSON value
  (possibly null).
* `TaskInDB` (lines 42-46) is the response model: validating it from the
  ORM object fails when `title` or `done` is NULL (`title : str`,
  `done : bool` admit no null), which FastAPI surfaces as a 500 response
  after the transaction has already committed.  `serialize` models this
  validation.
* The SQLite rowid sequence assigns `max(existing id) + 1` (1 on an empty
  table); `freshId` models this.
* `db.query(Task)` with no ORDER BY yields rows in rowid order, i.e. the
  order of our list; `.filter(Task.id == tid).first()` is `List.find?`;
  `db.delete` removes the row found, i.e. the first row with that id.
-/

namespace TodoAPI

/-- A row of the `tasks` table (source lines 19-25).  `title` and `done`
are `Option`-valued because the columns can hold SQL NULL (`title` only
transiently: its NOT NULL constraint aborts any commit that would store
NULL there). -/
structure Task where
  id : Nat
  title : Option String
  description : Option String
  done : Option Bool
  deriving Repr, DecidableEq

/-- The table contents in rowid order. -/
abbrev Store := List Task

/-- Validated create payload (`TaskCreate`, source lines 29-35): pydantic
has already enforced `title : str`, `description : Optional[str] = None`,
`done : bool = False`. -/
structure TaskCreate where
  title : String
  description : Option String := none
  done : Bool := false
  deriving Repr, DecidableEq

/-- Update payload (`TaskUpdate`, source lines 37-40) together with
pydantic's fields-set information, as consumed through
`task.dict(exclude_unset=True)` (line 111): `none` means the field was
absent from the request body, `some v` that it was present with JSON
value `v` (`some none` = explicitly null). -/
structure TaskUpdate where
  title : Option (Option String) := none
  description : Option (Option String) := none
  done : Option (Option Bool) := none
  deriving Repr, DecidableEq

/-- Response model (`TaskInDB`, source lines 42-46): `id : int`,
`title : str`, `description : Optional[str]`, `done : bool`. -/
structure TaskInDB where
  id : Nat
  title : String
  description : Option String
  done : Bool
  deriving Repr, DecidableEq

/-- HTTP outcome of a handler.  `ok` is the 2xx success carrying the body
(201 for create, 200 for get/list/update, 204 with `Unit` body for
delete); `notFound` is the `HTTPException(status_code=404)` raised on a
missing id; `serverError` is the uncaught 500 produced either by the
NOT NULL constraint firing at `db.commit()` or by response-model
validation rejecting a NULL `title`/`done`. -/
inductive Response (α : Type) where
  | ok : α → Response α
  | notFound : Response α
  | serverError : Response α
  deriving Repr, DecidableEq

/-- Validation of the ORM object against `TaskInDB` (source lines 42-46,
applied by FastAPI through `response_model=TaskInDB`): fails iff `title`
or `done` is NULL. -/
def serialize (t : Task) : Option TaskInDB :=
  match t.title, t.done with
  | some title, some done => some ⟨t.id, title, t.description, done⟩
  | _, _ => none

/-- The NOT NULL constraint on `title` (source line 23): a commit writing
a row whose `title` is NULL raises `IntegrityError`. -/
def commitOK (t : Task) : Bool := t.title.isSome

/-- SQLite's rowid assignment for `INSERT` on a table whose integer
primary key is the rowid: one more than the largest existing id (1 when
the table is empty). -/
def freshId (s : Store) : Nat := (s.map Task.id).foldr max 0 + 1

/-- `POST /tasks/` (`create_task`, source lines 68-81): build the row from
the validated payload, insert it, commit, and return the refreshed row
through the response model. -/
def create_task (s : Store) (p : TaskCreate) : Response TaskInDB × Store :=
  let t : Task :=
    { id := freshId s, title := some p.title,
      description := p.description, done := some p.done }
  let s' := s ++ [t]
  match serialize t with
  | some r => (Response.ok r, s')
  | none => (Response.serverError, s')

/-- Serialize a selection of rows for the list endpoint
(`response_model=List[TaskInDB]`); any row with NULL `title` or `done`
makes the whole response fail. -/
def serializeAll : List Task → Option (List TaskInDB)
  | [] => some []
  | t :: ts =>
    match serialize t, serializeAll ts with
    | some r, some rs => some (r :: rs)
    | _, _ => none

/-- `GET /tasks/` (`read_tasks`, source lines 83-89):
`db.query(Task).offset(skip).limit(limit).all()` in rowid order. -/
def read_tasks (s : Store) (skip limit : Nat) : Response (List TaskInDB) :=
  match serializeAll ((s.drop skip).take limit) with
  | some rs => Response.ok rs
  | none => Response.serverError

/-- `GET /tasks/{task_id}` (`read_task`, source lines 91-99):
`.filter(Task.id == task_id).first()`, 404 when absent, otherwise the row
through the response model.  The handler performs no write. -/
def read_task (s : Store) (tid : Nat) : Response TaskInDB :=
  match s.find? (fun t => t.id == tid) with
  | none => Response.notFound
  | some t =>
    match serialize t with
    | some r => Response.ok r
    | none => Response.serverError

/-- The `setattr` loop of `update_task` (source lines 111-114): each field
present in `task.dict(exclude_unset=True)` overwrites the row's value
(even with null); each absent field is untouched.  `id` is not a
`TaskUpdate` field, so it is never assigned. -/
def applyUpdate (t : Task) (p : TaskUpdate) : Task :=
  { t with
    title := p.title.getD t.title,
    description := p.description.getD t.description,
    done := p.done.getD t.done }

/-- Replace the first row whose id is `tid` (the row the handler's
`.first()` found and mutated in place; its rowid, hence its position, is
unchanged). -/
def replaceFirst (s : Store) (tid : Nat) (t' : Task) : Store :=
  match s with
  | [] => []
  | u :: rest =>
    if u.id == tid then t' :: rest else u :: replaceFirst rest tid t'

/-- `PUT /tasks/{task_id}` (`update_task`, source lines 101-119): find the
row (404 if absent), apply the present fields, commit (the NOT NULL
constraint on `title` can abort here, leaving the store unchanged), then
return the refreshed row through the response model (which can fail with
500 after the commit has already persisted the change). -/
def update_task (s : Store) (tid : Nat) (p : TaskUpdate) :
    Response TaskInDB × Store :=
  match s.find? (fun t => t.id == tid) with
  | none => (Response.notFound, s)
  | some t =>
    let t' := applyUpdate t p
    if commitOK t' then
      let s' := replaceFirst s tid t'
      match serialize t' with
      | some r => (Response.ok r, s')
      | none => (Response.serverError, s')
    else
      (Response.serverError, s)

/-- `DELETE /tasks/{task_id}` (`delete_task`, source lines 121-131): find
the row (404 if absent), delete it, commit, and return an empty 204
body. -/
def delete_task (s : Store) (tid : Nat) : Response Unit × Store :=
  match s.find? (fun t => t.id == tid) with
  | none => (Response.notFound, s)
  | some _ => (Response.ok (), s.eraseP (fun t => t.id == tid))

/-- Store states reachable from the empty table by the write handlers
(`GET` handlers perform no writes). -/
inductive Reachable : Store → Prop where
  | empty : Reachable []
  | create (s : Store) (p : TaskCreate) :
      Reachable s → Reachable (create_task s p).2
  | update (s : Store) (tid : Nat) (p : TaskUpdate) :
      Reachable s → Reachable (update_task s tid p).2
  | delete (s : Store) (tid : Nat) :
      Reachable s → Reachable (delete_task s tid).2

/-! ### Helper lemmas -/

theorem le_foldr_max (l : List Nat) (x : Nat) (hx : x ∈ l) :
    x ≤ l.foldr max 0 := by
  induction l with
  | nil => cases hx
  | cons a t ih =>
    rcases List.mem_cons.mp hx with h | h
    · subst h; exact le_max_left _ _
    · exact le_trans (ih h) (le_max_right _ _)

/-- The id a fresh insert receives is not an id of any existing row. -/
theorem freshId_not_mem (s : Store) : freshId s ∉ s.map Task.id := by
  intro h
  have h2 := le_foldr_max (s.map Task.id) (freshId s) h
  unfold freshId at h2
  omega

theorem find?_eq_none_of_not_mem (s : Store) (tid : Nat)
    (h : tid ∉ s.map Task.id) :
    s.find? (fun t => t.id == tid) = none := by
  apply List.find?_eq_none.mpr
  intro t ht hbeq
  exact h (List.mem_map.mpr ⟨t, ht, eq_of_beq hbeq⟩)

/-- In-place mutation of a row keeps the table's id column unchanged. -/
theorem replaceFirst_map_id (s : Store) (tid : Nat) (t' : Task)
    (h : t'.id = tid) :
    (replaceFirst s tid t').map Task.id = s.map Task.id := by
  induction s with
  | nil => rfl
  | cons u rest ih =>
    by_cases hu : (u.id == tid) = true
    · have hu' : u.id = tid := eq_of_beq hu
      simp [replaceFirst, hu, h, hu']
    · simp [replaceFirst, hu, ih]

/-- Writing the found row back unchanged leaves the table unchanged. -/
theorem replaceFirst_self (s : Store) (tid : Nat) (t : Task)
    (h : s.find? (fun u => u.id == tid) = some t) :
    replaceFirst s tid t = s := by
  induction s with
  | nil => simp at h
  | cons u rest ih =>
    rw [List.find?_cons] at h
    by_cases hu : (u.id == tid) = true
    · simp only [hu] at h
      cases h
      simp [replaceFirst, hu]
    · simp only [Bool.not_eq_true] at hu
      simp only [hu] at h
      simp [replaceFirst, hu, ih h]

/-- Every row of the mutated table is the new row or an old row. -/
theorem mem_replaceFirst (s : Store) (tid : Nat) (t' u : Task)
    (h : u ∈ replaceFirst s tid t') : u = t' ∨ u ∈ s := by
  induction s with
  | nil => cases h
  | cons v rest ih =>
    by_cases hv : (v.id == tid) = true
    · simp only [replaceFirst, hv, if_true] at h
      rcases List.mem_cons.mp h with h | h
      · exact Or.inl h
      · exact Or.inr (List.mem_cons_of_mem _ h)
    · simp only [replaceFirst, hv, if_false] at h
      rcases List.mem_cons.mp h with h | h
      · exact Or.inr (h ▸ List.mem_cons_self _ _)
      · rcases ih h with h | h
        · exact Or.inl h
        · exact Or.inr (List.mem_cons_of_mem _ h)

/-- After deleting the row with id `tid` from a table with pairwise
distinct ids, no row with id `tid` remains. -/
theorem eraseP_id_not_mem (s : Store) (tid : Nat)
    (h : (s.map Task.id).Nodup) :
    tid ∉ (s.eraseP (fun t => t.id == tid)).map Task.id := by
  induction s with
  | nil => simp
  | cons u rest ih =>
    simp only [List.map_cons, List.nodup_cons] at h
    by_cases hu : (u.id == tid) = true
    · rw [List.eraseP_cons_of_pos (p := fun t : Task => t.id == tid) hu]
      have hu' : u.id = tid := eq_of_beq hu
      exact fun hmem => h.1 (hu' ▸ hmem)
    · rw [List.eraseP_cons_of_neg (p := fun t : Task => t.id == tid) hu]
      simp only [List.map_cons, List.mem_cons]
      rintro (rfl | hmem)
      · exact hu (by simp)
      · exact ih h.2 hmem

/-- A successful row-to-response validation keeps the id. -/
theorem serialize_id (t : Task) (r : TaskInDB) (h : serialize t = some r) :
    r.id = t.id := by
  unfold serialize at h
  cases httl : t.title with
  | none => rw [httl] at h; cases t.done <;> simp at h
  | some a =>
    cases hdn : t.done with
    | none => rw [httl, hdn] at h; simp at h
    | some d =>
      rw [httl, hdn] at h
      cases h
      rfl

/-- When every selected row validates, the list response is the
field-for-field image of the selection. -/
theorem serializeAll_eq_some (l : List Task)
    (h : ∀ t ∈ l, (serialize t).isSome) :
    ∃ rs, serializeAll l = some rs ∧ rs.length = l.length ∧
      rs.map TaskInDB.id = l.map Task.id := by
  induction l with
  | nil => exact ⟨[], rfl, rfl, rfl⟩
  | cons t ts ih =>
    obtain ⟨rs, hrs, hlen, hids⟩ :=
      ih (fun u hu => h u (List.mem_cons_of_mem _ hu))
    obtain ⟨r, hr⟩ :=
      Option.isSome_iff_exists.mp (h t (List.mem_cons_self _ _))
    refine ⟨r :: rs, ?_, by simp [hlen], ?_⟩
    · simp [serializeAll, hr, hrs]
    · simp [hids, serialize_id t r hr]

/-- The second component of a create: the row appended, whatever the
response was. -/
theorem create_task_snd (s : Store) (p : TaskCreate) :
    (create_task s p).2 =
      s ++ [⟨freshId s, some p.title, p.description, some p.done⟩] := rfl

/-- `update` never touches the id column (there is no `id` field on
`TaskUpdate` for the `setattr` loop to copy). -/
theorem update_preserves_ids (s : Store) (tid : Nat) (p : TaskUpdate) :
    ((update_task s tid p).2).map Task.id = s.map Task.id := by
  unfold update_task
  cases hf : s.find? (fun t => t.id == tid) with
  | none => rfl
  | some t =>
    have hfs := List.find?_some hf
    have htid : t.id = tid := eq_of_beq hfs
    have hid' : (applyUpdate t p).id = tid := htid
    by_cases hc : commitOK (applyUpdate t p)
    · simp only [hc, if_true]
      cases serialize (applyUpdate t p) <;>
        simp [replaceFirst_map_id s tid _ hid']
    · simp [hc]

/-- Lists of pairwise distinct ids stay so along every reachable state. -/
theorem reachable_nodup (s : Store) (h : Reachable s) :
    (s.map Task.id).Nodup := by
  induction h with
  | empty => simp
  | create s p _ ih =>
    rw [create_task_snd]
    simp only [List.map_append, List.map_cons, List.map_nil]
    rw [List.nodup_append]
    refine ⟨ih, List.nodup_singleton _, ?_⟩
    intro a ha hb
    rw [List.mem_singleton] at hb
    subst hb
    exact freshId_not_mem s ha
  | update s tid p _ ih => rw [update_preserves_ids]; exact ih
  | delete s tid _ ih =>
    have hsub : ((delete_task s tid).2).Sublist s := by
      unfold delete_task
      cases s.find? (fun t => t.id == tid) with
      | none => exact List.Sublist.refl s
      | some t => exact List.eraseP_sublist s
    exact (hsub.map Task.id).nodup ih

theorem update_task_snd_none (s : Store) (tid : Nat) (p : TaskUpdate)
    (hf : s.find? (fun u => u.id == tid) = none) :
    (update_task s tid p).2 = s := by
  unfold update_task
  rw [hf]

theorem update_task_snd_found (s : Store) (tid : Nat) (p : TaskUpdate)
    (t : Task) (hf : s.find? (fun u => u.id == tid) = some t) :
    (update_task s tid p).2 =
      if commitOK (applyUpdate t p)
        then replaceFirst s tid (applyUpdate t p) else s := by
  unfold update_task
  rw [hf]
  by_cases hc : commitOK (applyUpdate t p)
  · simp only [hc, if_true]
    cases serialize (applyUpdate t p) <;> rfl
  · simp [hc]

theorem delete_task_snd_sublist (s : Store) (tid : Nat) :
    ((delete_task s tid).2).Sublist s := by
  unfold delete_task
  cases s.find? (fun u => u.id == tid) with
  | none => exact List.Sublist.refl s
  | some t => exact List.eraseP_sublist s

/-! ### Claims -/

/-- C2: for every id absent from the store, each of get, update and
delete answers exactly `notFound` (the 404 `HTTPException`); no other
failure kind is produced on a missing id. -/
theorem claim_C2_missing_id_not_found (s : Store) (tid : Nat)
    (p : TaskUpdate) (h : tid ∉ s.map Task.id) :
    read_task s tid = Response.notFound ∧
    (update_task s tid p).1 = Response.notFound ∧
    (delete_task s tid).1 = Response.notFound := by
  have hf := find?_eq_none_of_not_mem s tid h
  exact ⟨by simp [read_task, hf], by simp [update_task, hf],
    by simp [delete_task, hf]⟩

/-- Witness for C2: the empty store and id 1. -/
theorem claim_C2_witness :
    (1 ∉ ([] : Store).map Task.id) ∧
    (read_task [] 1 = Response.notFound ∧
     (update_task [] 1 ⟨none, none, none⟩).1 = Response.notFound ∧
     (delete_task [] 1).1 = Response.notFound) :=
  ⟨by simp, claim_C2_missing_id_not_found [] 1 ⟨none, none, none⟩ (by simp)⟩

/-- C10: the NotFound paths of update and delete return the input store
unchanged; the get handler is embedded as a pure function of the store
(it performs no write in the source), so it cannot change the store by
construction. -/
theorem claim_C10_not_found_atomic (s : Store) (tid : Nat) (p : TaskUpdate)
    (h : tid ∉ s.map Task.id) :
    (update_task s tid p).2 = s ∧ (delete_task s tid).2 = s := by
  have hf := find?_eq_none_of_not_mem s tid h
  exact ⟨by simp [update_task, hf], by simp [delete_task, hf]⟩

/-- Witness for C10: a one-row store and the missing id 2. -/
theorem claim_C10_witness :
    (2 ∉ ([⟨1, some "a", none, some false⟩] : Store).map Task.id) ∧
    ((update_task [⟨1, some "a", none, some false⟩] 2
        ⟨some (some "b"), none, none⟩).2 = [⟨1, some "a", none, some false⟩] ∧
     (delete_task [⟨1, some "a", none, some false⟩] 2).2
        = [⟨1, some "a", none, some false⟩]) :=
  ⟨by decide, claim_C10_not_found_atomic [⟨1, some "a", none, some false⟩] 2
    ⟨some (some "b"), none, none⟩ (by decide)⟩

/-- C3: creating with only a title succeeds and yields a record with
`done = false`, `description = null`, the given title, and a fresh id
distinct from the id of every record already in the store. -/
theorem claim_C3_create_defaults (s : Store) (title : String) :
    ∃ r : TaskInDB,
      (create_task s ⟨title, none, false⟩).1 = Response.ok r ∧
      r.done = false ∧ r.description = none ∧ r.title = title ∧
      r.id ∉ s.map Task.id :=
  ⟨⟨freshId s, title, none, false⟩, rfl, rfl, rfl, rfl, freshId_not_mem s⟩

/-- C6: reading back the id returned by create, with no intervening
write, returns a record equal on all fields to the one create
returned. -/
theorem claim_C6_get_after_create (s : Store) (p : TaskCreate) :
    ∃ r : TaskInDB,
      (create_task s p).1 = Response.ok r ∧
      read_task (create_task s p).2 r.id = Response.ok r := by
  refine ⟨⟨freshId s, p.title, p.description, p.done⟩, rfl, ?_⟩
  have hnone := find?_eq_none_of_not_mem s (freshId s) (freshId_not_mem s)
  rw [create_task_snd]
  simp [read_task, List.find?_append, hnone, serialize]

/-- C5: deleting an existing id (in a store whose ids are pairwise
distinct, as the primary key guarantees) answers 204 with an empty body,
and a subsequent get of that id answers `notFound`. -/
theorem claim_C5_delete_then_get (s : Store) (tid : Nat)
    (hnd : (s.map Task.id).Nodup) (hmem : tid ∈ s.map Task.id) :
    (delete_task s tid).1 = Response.ok () ∧
    read_task (delete_task s tid).2 tid = Response.notFound := by
  obtain ⟨t, ht, htid⟩ := List.mem_map.mp hmem
  have hsome : (s.find? (fun u => u.id == tid)).isSome := by
    rw [List.find?_isSome]
    exact ⟨t, ht, by simp [htid]⟩
  obtain ⟨t0, ht0⟩ := Option.isSome_iff_exists.mp hsome
  have hnot : tid ∉ (s.eraseP (fun u => u.id == tid)).map Task.id :=
    eraseP_id_not_mem s tid hnd
  have hf2 := find?_eq_none_of_not_mem _ tid hnot
  exact ⟨by simp [delete_task, ht0],
    by simp [delete_task, ht0, read_task, hf2]⟩

/-- Witness for C5: deleting id 1 from a one-row store. -/
theorem claim_C5_witness :
    ((([⟨1, some "a", none, some false⟩] : Store).map Task.id).Nodup ∧
     1 ∈ ([⟨1, some "a", none, some false⟩] : Store).map Task.id) ∧
    ((delete_task [⟨1, some "a", none, some false⟩] 1).1 = Response.ok () ∧
     read_task (delete_task [⟨1, some "a", none, some false⟩] 1).2 1
       = Response.notFound) :=
  ⟨⟨by decide, by decide⟩,
   claim_C5_delete_then_get [⟨1, some "a", none, some false⟩] 1
     (by decide) (by decide)⟩

/-- C8: in every reachable store state no two live rows share an id, and
the update handler never changes the id column (`TaskUpdate` carries no
`id` field for the `setattr` loop to assign), so the id assigned at
creation is immutable for the record's lifetime. -/
theorem claim_C8_id_unique_immutable (s : Store) (h : Reachable s) :
    (s.map Task.id).Nodup ∧
    ∀ (tid : Nat) (p : TaskUpdate),
      ((update_task s tid p).2).map Task.id = s.map Task.id :=
  ⟨reachable_nodup s h, fun tid p => update_preserves_ids s tid p⟩

/-- Witness for C8: the store reached by one create, updated at id 1. -/
theorem claim_C8_witness :
    (((create_task [] ⟨"a", none, false⟩).2).map Task.id).Nodup ∧
    ((update_task (create_task [] ⟨"a", none, false⟩).2 1
        ⟨none, none, some (some true)⟩).2).map Task.id
      = ((create_task [] ⟨"a", none, false⟩).2).map Task.id :=
  ⟨(claim_C8_id_unique_immutable (create_task [] ⟨"a", none, false⟩).2
      (Reachable.create [] ⟨"a", none, false⟩ Reachable.empty)).1,
   (claim_C8_id_unique_immutable (create_task [] ⟨"a", none, false⟩).2
      (Reachable.create [] ⟨"a", none, false⟩ Reachable.empty)).2
     1 ⟨none, none, some (some true)⟩⟩

/-- C1 counterexample: the claim quantifies over every payload, but a
payload whose `title` field is present with value null is a valid
`TaskUpdate` body, and on it the handler overwrites nothing and returns
no record: `setattr` writes NULL into `title`, the NOT NULL constraint
aborts the commit, and the request ends in a 500 with the store
unchanged. -/
theorem claim_C1_counterexample :
    update_task [⟨1, some "a", none, some false⟩] 1 ⟨some none, none, none⟩
      = (Response.serverError, [⟨1, some "a", none, some false⟩]) := by
  decide

/-- C1 (amended): for every existing task whose stored `title` and `done`
are non-null, and every payload that does not explicitly set `title` or
`done` to null, the update overwrites exactly the fields present in the
payload — a field explicitly set to its zero-value (e.g. `done: false`,
i.e. `p.done = some (some false)`) still overwrites — leaves every
absent field at its prior value, and returns the full updated record,
which is exactly the record stored back. -/
theorem claim_C1_partial_update (s : Store) (tid : Nat) (p : TaskUpdate)
    (t : Task) (hfind : s.find? (fun u => u.id == tid) = some t)
    (httl : t.title.isSome) (hdn : t.done.isSome)
    (hpt : p.title ≠ some none) (hpd : p.done ≠ some none) :
    ∃ r : TaskInDB,
      (update_task s tid p).1 = Response.ok r ∧
      (update_task s tid p).2 =
        replaceFirst s tid ⟨t.id, some r.title, r.description, some r.done⟩ ∧
      r.id = t.id ∧
      (p.title = none → some r.title = t.title) ∧
      (∀ v, p.title = some (some v) → r.title = v) ∧
      (p.description = none → r.description = t.description) ∧
      (∀ v, p.description = some v → r.description = v) ∧
      (p.done = none → some r.done = t.done) ∧
      (∀ v, p.done = some (some v) → r.done = v) := by
  obtain ⟨a, ha⟩ := Option.isSome_iff_exists.mp httl
  obtain ⟨d, hd⟩ := Option.isSome_iff_exists.mp hdn
  have htv : ∃ tv, p.title.getD t.title = some tv := by
    cases hp : p.title with
    | none => exact ⟨a, by simp [ha]⟩
    | some x =>
      cases x with
      | none => exact absurd hp hpt
      | some v => exact ⟨v, rfl⟩
  obtain ⟨tv, htv⟩ := htv
  have hdv : ∃ dv, p.done.getD t.done = some dv := by
    cases hp : p.done with
    | none => exact ⟨d, by simp [hd]⟩
    | some x =>
      cases x with
      | none => exact absurd hp hpd
      | some v => exact ⟨v, rfl⟩
  obtain ⟨dv, hdv⟩ := hdv
  have happ : applyUpdate t p =
      ⟨t.id, some tv, p.description.getD t.description, some dv⟩ := by
    simp [applyUpdate, htv, hdv]
  refine ⟨⟨t.id, tv, p.description.getD t.description, dv⟩, ?_, ?_, rfl,
    ?_, ?_, ?_, ?_, ?_, ?_⟩
  · simp [update_task, hfind, happ, commitOK, serialize]
  · simp [update_task, hfind, happ, commitOK, serialize]
  · intro h0; rw [h0] at htv; simpa using htv.symm
  · intro v hv; rw [hv] at htv; simpa using htv.symm
  · intro h0; rw [h0]; rfl
  · intro v hv; rw [hv]; rfl
  · intro h0; rw [h0] at hdv; simpa using hdv.symm
  · intro v hv; rw [hv] at hdv; simpa using hdv.symm

/-- Witness for C1 (amended): the spec's own example — update
`{done: true}` on a task created with description `"x"` keeps the
description and overwrites `done`. -/
theorem claim_C1_witness :
    (([⟨1, some "a", some "x", some false⟩] : Store).find?
        (fun u => u.id == 1) = some ⟨1, some "a", some "x", some false⟩) ∧
    (∃ r : TaskInDB,
      (update_task [⟨1, some "a", some "x", some false⟩] 1
          ⟨none, none, some (some true)⟩).1 = Response.ok r ∧
      (update_task [⟨1, some "a", some "x", some false⟩] 1
          ⟨none, none, some (some true)⟩).2 =
        replaceFirst [⟨1, some "a", some "x", some false⟩] 1
          ⟨1, some r.title, r.description, some r.done⟩ ∧
      r.id = 1 ∧
      ((none : Option (Option String)) = none → some r.title = some "a") ∧
      (∀ v, (none : Option (Option String)) = some (some v) → r.title = v) ∧
      ((none : Option (Option String)) = none → r.description = some "x") ∧
      (∀ v, (none : Option (Option String)) = some v → r.description = v) ∧
      ((some (some true) : Option (Option Bool)) = none →
        some r.done = some false) ∧
      (∀ v, (some (some true) : Option (Option Bool)) = some (some v) →
        r.done = v)) :=
  ⟨by decide,
   claim_C1_partial_update [⟨1, some "a", some "x", some false⟩] 1
     ⟨none, none, some (some true)⟩ ⟨1, some "a", some "x", some false⟩
     (by decide) (by decide) (by decide) (by decide) (by decide)⟩

/-- C4 counterexample: an update whose payload explicitly supplies null
for `done` does NOT preserve the "done is never null" invariant:
`dict(exclude_unset=True)` keeps the explicitly-null field, `setattr`
writes None, the `done` column is nullable, and the commit persists it —
after this request the stored record has `done = NULL`. -/
theorem claim_C4_counterexample :
    (update_task [⟨1, some "a", none, some false⟩] 1
        ⟨none, none, some none⟩).2 = [⟨1, some "a", none, none⟩] := by
  decide

/-- C4 (amended): every record's `done` stays a defined boolean under
create, under delete, and under any update whose payload does not
explicitly set `done` to null; an update supplying `done: null` is the
one operation that breaks it (see the counterexample). -/
theorem claim_C4_done_defined (s : Store) (tid : Nat) (p : TaskUpdate)
    (cp : TaskCreate) (hwf : ∀ t ∈ s, t.done.isSome)
    (hp : p.done ≠ some none) :
    (∀ t ∈ (create_task s cp).2, t.done.isSome) ∧
    (∀ t ∈ (update_task s tid p).2, t.done.isSome) ∧
    (∀ t ∈ (delete_task s tid).2, t.done.isSome) := by
  refine ⟨?_, ?_, ?_⟩
  · rw [create_task_snd]
    intro t ht
    rcases List.mem_append.mp ht with h | h
    · exact hwf t h
    · rw [List.mem_singleton] at h
      subst h
      rfl
  · cases hf : s.find? (fun u => u.id == tid) with
    | none => rw [update_task_snd_none s tid p hf]; exact hwf
    | some t0 =>
      rw [update_task_snd_found s tid p t0 hf]
      have ht0 : t0 ∈ s := List.mem_of_find?_eq_some hf
      have hdone : ((applyUpdate t0 p).done).isSome := by
        unfold applyUpdate
        cases hpd : p.done with
        | none => simpa using hwf t0 ht0
        | some x =>
          cases x with
          | none => exact absurd hpd hp
          | some b => simp
      by_cases hc : commitOK (applyUpdate t0 p)
      · rw [if_pos hc]
        intro t ht
        rcases mem_replaceFirst s tid _ t ht with rfl | h
        · exact hdone
        · exact hwf t h
      · rw [if_neg hc]
        exact hwf
  · intro t ht
    exact hwf t ((delete_task_snd_sublist s tid).subset ht)

/-- Witness for C4 (amended): a one-row store under a create, a
non-null update of `done`, and a delete. -/
theorem claim_C4_witness :
    ((∀ t ∈ ([⟨1, some "a", none, some false⟩] : Store), t.done.isSome) ∧
     (some (some true) : Option (Option Bool)) ≠ some none) ∧
    ((∀ t ∈ (create_task [⟨1, some "a", none, some false⟩]
        ⟨"b", none, false⟩).2, t.done.isSome) ∧
     (∀ t ∈ (update_task [⟨1, some "a", none, some false⟩] 1
        ⟨none, none, some (some true)⟩).2, t.done.isSome) ∧
     (∀ t ∈ (delete_task [⟨1, some "a", none, some false⟩] 1).2,
        t.done.isSome)) :=
  ⟨⟨by decide, by decide⟩,
   claim_C4_done_defined [⟨1, some "a", none, some false⟩] 1
     ⟨none, none, some (some true)⟩ ⟨"b", none, false⟩
     (by decide) (by decide)⟩

/-- C7 counterexample: the claim quantifies over every store state, but
on a store holding a row whose `done` column is NULL (a state the API
itself can reach, see the C4 counterexample) the list endpoint does not
return records at all: response-model validation fails and the request
ends in a 500. -/
theorem claim_C7_counterexample :
    read_tasks [⟨1, some "a", none, none⟩] 0 1 = Response.serverError := by
  decide

/-- C7 (amended): on every store whose rows all pass response-model
validation (non-null `title` and `done`), list skips the first `skip`
rows of the rowid order and returns at most `limit` rows, id-for-id the
slice of the store; and on such a store with exactly 2 rows (with
distinct ids, as the primary key guarantees), `list 0 1` returns exactly
one record and `list 1 1` exactly the other, disjoint from the first. -/
theorem claim_C7_list_pagination (s : Store) (skip limit : Nat)
    (hwf : ∀ t ∈ s, (serialize t).isSome) :
    (∃ rs, read_tasks s skip limit = Response.ok rs ∧
      rs.length ≤ limit ∧
      rs.map TaskInDB.id = ((s.drop skip).take limit).map Task.id) ∧
    (s.length = 2 → (s.map Task.id).Nodup →
      ∃ r0 r1, read_tasks s 0 1 = Response.ok [r0] ∧
        read_tasks s 1 1 = Response.ok [r1] ∧ r0.id ≠ r1.id) := by
  constructor
  · have h1 : ∀ t ∈ (s.drop skip).take limit, (serialize t).isSome :=
      fun t ht => hwf t (List.mem_of_mem_drop (List.mem_of_mem_take ht))
    obtain ⟨rs, hrs, hlen, hids⟩ := serializeAll_eq_some _ h1
    refine ⟨rs, by simp [read_tasks, hrs], ?_, hids⟩
    rw [hlen]
    exact List.length_take_le _ _
  · intro hlen2 hnd
    obtain ⟨a, b, rfl⟩ : ∃ a b, s = [a, b] := by
      cases s with
      | nil => simp at hlen2
      | cons a t =>
        cases t with
        | nil => simp at hlen2
        | cons b t2 =>
          cases t2 with
          | nil => exact ⟨a, b, rfl⟩
          | cons c t3 => simp at hlen2
    obtain ⟨ra, hra⟩ := Option.isSome_iff_exists.mp (hwf a (by simp))
    obtain ⟨rb, hrb⟩ := Option.isSome_iff_exists.mp (hwf b (by simp))
    refine ⟨ra, rb, ?_, ?_, ?_⟩
    · simp [read_tasks, serializeAll, hra]
    · simp [read_tasks, serializeAll, hrb]
    · rw [serialize_id a ra hra, serialize_id b rb hrb]
      simp only [List.map_cons, List.map_nil, List.nodup_cons,
        List.mem_singleton] at hnd
      exact hnd.1

/-- Witness for C7 (amended): a two-row store. -/
theorem claim_C7_witness :
    (∀ t ∈ ([⟨1, some "a", none, some false⟩,
        ⟨2, some "b", some "x", some true⟩] : Store), (serialize t).isSome) ∧
    ((∃ rs, read_tasks [⟨1, some "a", none, some false⟩,
          ⟨2, some "b", some "x", some true⟩] 0 1 = Response.ok rs ∧
        rs.length ≤ 1 ∧
        rs.map TaskInDB.id =
          ((([⟨1, some "a", none, some false⟩,
            ⟨2, some "b", some "x", some true⟩] : Store).drop 0).take 1).map
            Task.id) ∧
     (([⟨1, some "a", none, some false⟩,
        ⟨2, some "b", some "x", some true⟩] : Store).length = 2 →
      (([⟨1, some "a", none, some false⟩,
        ⟨2, some "b", some "x", some true⟩] : Store).map Task.id).Nodup →
      ∃ r0 r1, read_tasks [⟨1, some "a", none, some false⟩,
          ⟨2, some "b", some "x", some true⟩] 0 1 = Response.ok [r0] ∧
        read_tasks [⟨1, some "a", none, some false⟩,
          ⟨2, some "b", some "x", some true⟩] 1 1 = Response.ok [r1] ∧
        r0.id ≠ r1.id)) :=
  ⟨by decide,
   claim_C7_list_pagination [⟨1, some "a", none, some false⟩,
     ⟨2, some "b", some "x", some true⟩] 0 1 (by decide)⟩

/-- C9 counterexample: the claim quantifies over every id present in the
store, but on a record whose `done` column is NULL (reachable, see the
C4 counterexample) the empty update does not answer 200: the record is
committed back unchanged and then response-model validation fails, so
the request ends in a 500 (the store is indeed unchanged). -/
theorem claim_C9_counterexample :
    update_task [⟨1, some "a", none, none⟩] 1 ⟨none, none, none⟩
      = (Response.serverError, [⟨1, some "a", none, none⟩]) := by
  decide

/-- C9 (amended): for every id present in the store whose stored record
has non-null `title` and `done`, the empty update (no fields supplied)
answers 200 with the record's four fields unchanged and leaves the store
unchanged — an identity operation. -/
theorem claim_C9_empty_update_identity (s : Store) (tid : Nat) (t : Task)
    (hfind : s.find? (fun u => u.id == tid) = some t)
    (httl : t.title.isSome) (hdn : t.done.isSome) :
    ∃ r : TaskInDB,
      update_task s tid ⟨none, none, none⟩ = (Response.ok r, s) ∧
      some r.title = t.title ∧ r.description = t.description ∧
      some r.done = t.done ∧ r.id = t.id := by
  obtain ⟨a, ha⟩ := Option.isSome_iff_exists.mp httl
  obtain ⟨d, hd⟩ := Option.isSome_iff_exists.mp hdn
  have happ : applyUpdate t ⟨none, none, none⟩ = t := rfl
  have hrep := replaceFirst_self s tid t hfind
  refine ⟨⟨t.id, a, t.description, d⟩, ?_, by rw [ha], rfl, by rw [hd], rfl⟩
  unfold update_task
  rw [hfind]
  simp only [happ]
  simp [commitOK, ha, hd, serialize, hrep]

/-- Witness for C9 (amended): the empty update on a one-row store. -/
theorem claim_C9_witness :
    (([⟨1, some "a", some "x", some true⟩] : Store).find?
        (fun u => u.id == 1) = some ⟨1, some "a", some "x", some true⟩) ∧
    (∃ r : TaskInDB,
      update_task [⟨1, some "a", some "x", some true⟩] 1 ⟨none, none, none⟩
        = (Response.ok r, [⟨1, some "a", some "x", some true⟩]) ∧
      some r.title = some "a" ∧ r.description = some "x" ∧
      some r.done = some true ∧ r.id = 1) :=
  ⟨by decide,
   claim_C9_empty_update_identity [⟨1, some "a", some "x", some true⟩] 1
     ⟨1, some "a", some "x", some true⟩ (by decide) (by decide) (by decide)⟩

end TodoAPI
